import Mathlib

/-!
# Verification of the pod-sandbox lifecycle coordinator

A shallow embedding of `pkg/kubelet/dockershim/docker_sandbox.go`.

The embedding translates each function of the source file into a Lean
definition.  External collaborators that live outside this file (the docker
backend client, the network plugin, the checkpoint handler and the
naming/label codec, cf. spec §6) are modelled as oracle parameters carrying
the outcome of the single call the embedded function makes, or — for the
checkpoint store — as an explicit association list modelled from the spec
(§4.4).  Every definition is executable.
-/

set_option maxHeartbeats 1000000

namespace DockershimSandbox

/-- Lifecycle state of a sandbox (`runtimeapi.PodSandboxState`):
`SANDBOX_READY` / `SANDBOX_NOTREADY`. -/
inductive SandboxState where
  | ready
  | notReady
deriving DecidableEq

/-- Errors returned by the docker backend client.  `containerNotFound` is the
class recognised by `dockertools.IsContainerNotFoundError`; `other` is any
other backend error. -/
inductive DockerError where
  | containerNotFound (msg : String)
  | other (msg : String)
deriving DecidableEq

/-- `dockertools.IsContainerNotFoundError` (external helper): recognises the
"container not found" error class of the backend. -/
def IsContainerNotFoundError : DockerError → Bool
  | .containerNotFound _ => true
  | .other _ => false

/-- Error classes of the checkpoint store (`errors.CheckpointNotFoundError`,
`errors.CorruptCheckpointError`, and generic store failures), spec §4.4. -/
inductive CheckpointError where
  | notFound
  | corrupt
  | other (msg : String)
deriving DecidableEq

/-- Modelled from the spec: a checkpoint port-mapping entry
{host port, container port, protocol} (`PortMapping` of
`docker_checkpoint.go`, which is not under `src/`). -/
structure CheckpointPortMapping where
  hostPort : Int
  containerPort : Int
  protocol : String
deriving DecidableEq

/-- Modelled from the spec: the data section of a checkpoint, holding the
ordered port-mapping list. -/
structure CheckpointData where
  portMappings : List CheckpointPortMapping
deriving DecidableEq

/-- Modelled from the spec: the Checkpoint record
{namespace, name, ordered port-mapping list} (spec §3, §4.4).  The Go field
`Namespace` is rendered `ns` because `namespace` is a Lean keyword. -/
structure PodSandboxCheckpoint where
  ns : String
  name : String
  data : CheckpointData
deriving DecidableEq

/-- Modelled from the spec: `NewPodSandboxCheckpoint` — a fresh checkpoint for
the given namespace/name with no port mappings yet. -/
def NewPodSandboxCheckpoint (ns name : String) : PodSandboxCheckpoint :=
  { ns := ns, name := name, data := { portMappings := [] } }

/-- What a stored checkpoint payload decodes to: either a valid checkpoint or
a corrupted (undecodable) blob.  Spec §4.4. -/
inductive StoredPayload where
  | valid (cp : PodSandboxCheckpoint)
  | corrupt
deriving DecidableEq

/-- Modelled from the spec: the Checkpoint Store (§4.4) — a durable key-value
record keyed by sandbox id, as an association list. -/
abbrev CheckpointStore := List (String × StoredPayload)

/-- Key lookup in the store (first match). -/
def storeLookup : CheckpointStore → String → Option StoredPayload
  | [], _ => none
  | (k, v) :: rest, id => if k = id then some v else storeLookup rest id

/-- Modelled from the spec: `GetCheckpoint` / `Read(id)` of the Checkpoint
Store distinguishes not-found, corrupted and valid payloads (spec §4.4). -/
def getCheckpoint (store : CheckpointStore) (id : String) :
    Except CheckpointError PodSandboxCheckpoint :=
  match storeLookup store id with
  | none => .error .notFound
  | some .corrupt => .error .corrupt
  | some (.valid cp) => .ok cp

/-- Modelled from the spec: `RemoveCheckpoint` deletes the entry with the
given id; removing an absent id is not an error (spec §4.4, §7). -/
def removeCheckpoint : CheckpointStore → String → CheckpointStore
  | [], _ => []
  | (k, v) :: rest, id =>
      if k = id then removeCheckpoint rest id else (k, v) :: removeCheckpoint rest id

/-- The keys of a store. -/
def storeKeys : CheckpointStore → List String
  | [] => []
  | (k, _) :: rest => k :: storeKeys rest

/-- Modelled from the spec: `ListCheckpoints` returns the ids of all stored
checkpoints (spec §4.4 `ListIds`). -/
def listCheckpoints (store : CheckpointStore) : List String :=
  storeKeys store

/-- `runtimeapi.PodSandboxMetadata`: structured sandbox identity.  The Go
field `Namespace` is rendered `ns`. -/
structure PodSandboxMetadata where
  name : String
  ns : String
  uid : String := ""
  attempt : Nat := 0
deriving DecidableEq

/-- `runtimeapi.NamespaceOption` — only the `HostNetwork` field is read by
this file. -/
structure NamespaceOption where
  hostNetwork : Bool
deriving DecidableEq

/-- `runtimeapi.PortMapping`; `protocol` is the raw protobuf enum value
(`Protocol_TCP = 0`, `Protocol_UDP = 1`, other values are possible). -/
structure PortMapping where
  protocol : Int
  containerPort : Int
  hostPort : Int
deriving DecidableEq

/-- `runtimeapi.PodSandboxConfig`, restricted to the fields this file reads:
metadata, the Linux security-context namespace options
(`config.GetLinux().GetSecurityContext().GetNamespaceOptions()`, `none` when
any link of that getter chain is nil) and the port mappings. -/
structure PodSandboxConfig where
  metadata : PodSandboxMetadata
  nsOpts : Option NamespaceOption
  portMappings : List PortMapping
deriving DecidableEq

/-- `runtimeapi.Protocol_TCP`. -/
def Protocol_TCP : Int := 0

/-- `runtimeapi.Protocol_UDP`. -/
def Protocol_UDP : Int := 1

/-- Modelled from the spec: checkpoint protocol constant `protocolTCP`
(`docker_checkpoint.go`, not under `src/`). -/
def protocolTCP : String := "tcp"

/-- Modelled from the spec: checkpoint protocol constant `protocolUDP`. -/
def protocolUDP : String := "udp"

/-- `toCheckpointProtocol`: the switch maps TCP and UDP to the corresponding
checkpoint protocol and defaults everything else to TCP (with a warning). -/
def toCheckpointProtocol (protocol : Int) : String :=
  if protocol = Protocol_TCP then protocolTCP
  else if protocol = Protocol_UDP then protocolUDP
  else protocolTCP

/-- The append loop of `constructPodSandboxCheckpoint` over
`config.GetPortMappings()`. -/
def checkpointPortMappings : List PortMapping → List CheckpointPortMapping
  | [] => []
  | pm :: rest =>
      { hostPort := pm.hostPort, containerPort := pm.containerPort,
        protocol := toCheckpointProtocol pm.protocol } :: checkpointPortMappings rest

/-- `constructPodSandboxCheckpoint`: a fresh checkpoint for the config's
namespace/name whose data carries the translated port mappings in order. -/
def constructPodSandboxCheckpoint (config : PodSandboxConfig) : PodSandboxCheckpoint :=
  let checkpoint := NewPodSandboxCheckpoint config.metadata.ns config.metadata.name
  { checkpoint with
    data := { checkpoint.data with
              portMappings := checkpointPortMappings config.portMappings } }

/-- `dockertypes.ContainerJSON.NetworkSettings`, restricted to the fields
read here: the backend-reported IPv4 (`IPAddress`) and IPv6
(`GlobalIPv6Address`) addresses. -/
structure NetworkSettings where
  ipAddress : String
  globalIPv6Address : String

/-- `dockercontainer.HostConfig`, restricted to `NetworkMode`. -/
structure HostConfigJSON where
  networkMode : String

/-- `dockertypes.ContainerJSON` (the output of `docker inspect`), restricted
to the fields this file reads.  `createdAt` is the outcome of the external
timestamp parse `getContainerTimestamps`; `labels` is `Config.Labels`. -/
structure ContainerJSON where
  id : String
  name : String
  running : Bool
  createdAt : Except String Int
  labels : List (String × String)
  hostConfig : Option HostConfigJSON
  networkSettings : Option NetworkSettings

/-- `containerTypeLabelKey` (defined in `docker_service.go`, outside `src/`):
the structured container-type label key. -/
def containerTypeLabelKey : String := "io.kubernetes.docker.type"

/-- `containerTypeLabelSandbox`: the label value marking sandboxes. -/
def containerTypeLabelSandbox : String := "podsandbox"

/-- `namespaceModeHost` (defined outside `src/`): docker network-mode string
for sharing the host's network namespace. -/
def namespaceModeHost : String := "host"

/-- Label-map lookup (Go map indexing on `Config.Labels`). -/
def lookupLabel : List (String × String) → String → Option String
  | [], _ => none
  | (k, v) :: rest, key => if k = key then some v else lookupLabel rest key

/-- `sharesHostNetwork`: true iff the inspected container has a host config
whose network mode is the host mode.  (The Lean value is never `nil`, so the
`container != nil` guard is vacuous here.) -/
def sharesHostNetwork (container : ContainerJSON) : Bool :=
  match container.hostConfig with
  | some hc => hc.networkMode == namespaceModeHost
  | none => false

/-- The result type of `PodSandboxStatus` (`runtimeapi.PodSandboxStatus`,
restricted to the fields this file writes).  `nsOpts` is
`Linux.Namespaces.Options`, `netNS` is `Linux.Namespaces.Network`. -/
structure PodSandboxStatusR where
  id : String
  state : SandboxState
  createdAt : Int
  metadata : PodSandboxMetadata
  labels : List (String × String)
  annotations : List (String × String)
  ip : String
  netNS : String
  nsOpts : Option NamespaceOption

/-- Oracles for the external collaborators called by the status path:
the naming/label codec (`parseSandboxName`, `convertLegacyNameAndLabels`,
`extractLabels` — outside `src/`), `getNetworkNamespace`, and the network
plugin's `GetPodNetworkStatus` (spec §6).  `getPodNetworkStatus` takes
namespace, name and the sandbox id (the runtime-qualified composite id is
folded into the oracle); `.ok none` models a nil network status, `.ok (some
ip)` a status whose IP renders to `ip`. -/
structure SandboxEnv where
  parseSandboxName : String → Except String PodSandboxMetadata
  convertLegacyNameAndLabels :
    String → List (String × String) → Except String (String × List (String × String))
  extractLabels : List (String × String) → List (String × String) × List (String × String)
  getNetworkNamespace : ContainerJSON → String
  getPodNetworkStatus : String → String → String → Except String (Option String)

/-- `getIPFromPlugin`: parse the sandbox name, interrogate the plugin, and
fail on plugin error or a nil network status. -/
def getIPFromPlugin (env : SandboxEnv) (sandbox : ContainerJSON) : Except String String :=
  match env.parseSandboxName sandbox.name with
  | .error e => .error e
  | .ok md =>
    match env.getPodNetworkStatus md.ns md.name sandbox.id with
    | .error e => .error ("Couldn't find network status through plugin: " ++ e)
    | .ok none => .error "invalid network status"
    | .ok (some ip) => .ok ip

/-- `getIP`: empty for a missing `NetworkSettings` or a host-network sandbox;
otherwise the plugin's non-empty answer, falling back to the backend IPv4,
then the backend IPv6.  (In the source the error result is always nil, so the
Lean version returns just the string.) -/
def getIP (env : SandboxEnv) (sandbox : ContainerJSON) : String :=
  match sandbox.networkSettings with
  | none => ""
  | some settings =>
    if sharesHostNetwork sandbox then ""
    else
      match getIPFromPlugin env sandbox with
      | .ok ip =>
          if ip ≠ "" then ip
          else if settings.ipAddress ≠ "" then settings.ipAddress
          else settings.globalIPv6Address
      | .error _ =>
          if settings.ipAddress ≠ "" then settings.ipAddress
          else settings.globalIPv6Address

/-- The common tail of `PodSandboxStatus`: parse the (possibly rewritten)
sandbox name, split labels from annotations, and assemble the status
record. -/
def finishStatus (env : SandboxEnv) (id : String) (state : SandboxState) (ct : Int)
    (ip netNS : String) (hostNetwork : Bool) (name : String)
    (labels : List (String × String)) : Except DockerError PodSandboxStatusR :=
  match env.parseSandboxName name with
  | .error e => .error (.other e)
  | .ok md =>
      .ok { id := id, state := state, createdAt := ct, metadata := md,
            labels := (env.extractLabels labels).1,
            annotations := (env.extractLabels labels).2,
            ip := ip, netNS := netNS,
            nsOpts := some { hostNetwork := hostNetwork } }

/-- `PodSandboxStatus`: inspect (outcome passed as `inspectRes`; a raw
backend error is propagated unwrapped), parse the timestamp, map running to
Ready, resolve the IP, and — when the container-type label is absent — route
name and labels through the legacy decoder and invert the host-network flag
(`hostNetwork = !hostNetwork`) before assembling the result. -/
def podSandboxStatus (env : SandboxEnv) (inspectRes : Except DockerError ContainerJSON) :
    Except DockerError PodSandboxStatusR :=
  match inspectRes with
  | .error e => .error e
  | .ok r =>
    match r.createdAt with
    | .error e => .error (.other ("failed to parse timestamp: " ++ e))
    | .ok ct =>
      let state := if r.running then SandboxState.ready else SandboxState.notReady
      let ip := getIP env r
      let netNS := env.getNetworkNamespace r
      let hostNetwork := sharesHostNetwork r
      match lookupLabel r.labels containerTypeLabelKey with
      | none =>
        match env.convertLegacyNameAndLabels r.name r.labels with
        | .error e => .error (.other e)
        | .ok (name', labels') =>
            finishStatus env r.id state ct ip netNS (!hostNetwork) name' labels'
      | some _ =>
          finishStatus env r.id state ct ip netNS hostNetwork r.name r.labels

/-- An error collected by `StopPodSandbox`, tagged with its origin. -/
inductive StopSubErr where
  | checkpointGet (e : CheckpointError)
  | statusGet (e : DockerError)
  | network (e : String)
  | backendStop (e : DockerError)
deriving DecidableEq

/-- Observable behaviour of one `StopPodSandbox` call: whether it aborted
before the teardown phase, the namespace/name the network plugin was given
(`none` when teardown was not attempted), whether the backend stop was
attempted, and the collected error list (`utilerrors.NewAggregate` returns
nil exactly when this list is empty). -/
structure StopTrace where
  earlyReturn : Bool
  tearDownArgs : Option (String × String)
  stopAttempted : Bool
  errList : List StopSubErr
deriving DecidableEq

/-- The teardown phase of `StopPodSandbox` (source lines 162–177): tear down
networking when needed (collecting a failure), then always attempt the
backend stop, dropping a "container not found" stop error.  `tdErr` and
`stopErr` are the outcomes of the plugin teardown and `StopContainer`
calls. -/
def stopTeardownPhase (ns nm : String) (need : Bool) (tdErr : Option String)
    (stopErr : Option DockerError) : StopTrace :=
  let netErrs : List StopSubErr :=
    if need then
      match tdErr with
      | some e => [.network e]
      | none => []
    else []
  let stopErrs : List StopSubErr :=
    match stopErr with
    | some e => if IsContainerNotFoundError e = true then [] else [.backendStop e]
    | none => []
  { earlyReturn := false,
    tearDownArgs := if need then some (ns, nm) else none,
    stopAttempted := true,
    errList := netErrs ++ stopErrs }

/-- The teardown-needed flag computed from a successful status:
`nsOpts != nil && !nsOpts.HostNetwork` (source line 125). -/
def statusNeedsTearDown (st : PodSandboxStatusR) : Bool :=
  match st.nsOpts with
  | some opts => !opts.hostNetwork
  | none => false

/-- `StopPodSandbox`: resolve identity and the teardown flag from the status
query (`statusRes`, outcome of `ds.PodSandboxStatus`) or, failing that, the
checkpoint (`cpRes`, outcome of `GetCheckpoint`), then run the teardown
phase.  When both lookups fail and the failures are not both of the
"not found" classes, abort with the two errors aggregated. -/
def stopPodSandbox (statusRes : Except DockerError PodSandboxStatusR)
    (cpRes : Except CheckpointError PodSandboxCheckpoint)
    (tdErr : Option String) (stopErr : Option DockerError) : StopTrace :=
  match statusRes with
  | .ok st =>
      stopTeardownPhase st.metadata.ns st.metadata.name (statusNeedsTearDown st) tdErr stopErr
  | .error statusErr =>
      match cpRes with
      | .ok cp => stopTeardownPhase cp.ns cp.name true tdErr stopErr
      | .error checkpointErr =>
          if IsContainerNotFoundError statusErr = true
              ∧ checkpointErr = CheckpointError.notFound then
            stopTeardownPhase "" "" true tdErr stopErr
          else
            { earlyReturn := true, tearDownArgs := none, stopAttempted := false,
              errList := [.checkpointGet checkpointErr, .statusGet statusErr] }

/-- The aggregated error returned by `StopPodSandbox`:
`utilerrors.NewAggregate` yields nil exactly for an empty error list. -/
def stopAggErr (t : StopTrace) : Option (List StopSubErr) :=
  if t.errList = [] then none else some t.errList

/-- Specification helper: the network-teardown contribution to Stop's error
list — one network error exactly when teardown was attempted (`args` is
`some`) and the plugin call failed. -/
def netErrPart (args : Option (String × String)) (tdErr : Option String) : List StopSubErr :=
  match args, tdErr with
  | some _, some e => [.network e]
  | _, _ => []

/-- Specification helper: the backend-stop contribution to Stop's error
list — the stop failure unless it is a container-not-found error. -/
def stopErrPart (stopErr : Option DockerError) : List StopSubErr :=
  match stopErr with
  | some e => if IsContainerNotFoundError e = true then [] else [.backendStop e]
  | none => []

/-- An error collected by `RemovePodSandbox`, tagged with its origin. -/
inductive RemoveSubErr where
  | backend (e : DockerError)
  | checkpoint (e : String)
deriving DecidableEq

/-- Observable behaviour of one `RemovePodSandbox` call. -/
structure RemoveTrace where
  removeContainerCalled : Bool
  removeCheckpointCalled : Bool
  errList : List RemoveSubErr
deriving DecidableEq

/-- Modelled from the spec: the checkpoint handler's `RemoveCheckpoint`
(outside `src/`) — removal of an absent checkpoint is not an error
("ignoring not found", spec §4.1 Remove, §4.4); `ioErr` is the outcome of the
underlying store I/O, a generic `StoreError` when `some`. -/
def removeCheckpointHandler (store : CheckpointStore) (id : String)
    (ioErr : Option String) : CheckpointStore × Option String :=
  match ioErr with
  | some e => (store, some e)
  | none => (removeCheckpoint store id, none)

/-- `RemovePodSandbox`: remove the backend record (`rcRes` is the outcome of
`RemoveContainer`; a "container not found" error is dropped), then remove the
checkpoint; both are attempted unconditionally and the errors of both are
aggregated. -/
def removePodSandbox (rcRes : Option DockerError) (store : CheckpointStore)
    (id : String) (ioErr : Option String) : RemoveTrace × CheckpointStore :=
  let backendErrs : List RemoveSubErr :=
    match rcRes with
    | some e => if IsContainerNotFoundError e = true then [] else [.backend e]
    | none => []
  let removed := removeCheckpointHandler store id ioErr
  let cpErrs : List RemoveSubErr :=
    match removed.2 with
    | some e => [.checkpoint e]
    | none => []
  ({ removeContainerCalled := true, removeCheckpointCalled := true,
     errList := backendErrs ++ cpErrs }, removed.1)

/-- `defaultSandboxImage` constant of the source. -/
def defaultSandboxImage : String := "gcr.io/google_containers/pause-amd64:3.0"

/-- `defaultSandboxCPUshares` constant of the source. -/
def defaultSandboxCPUshares : Int := 2

/-- `defaultSandboxGracePeriod` constant of the source. -/
def defaultSandboxGracePeriod : Int := 10

/-- `runtimeName` constant of the source. -/
def runtimeName : String := "docker"

/-- `dockertypes.ContainerCreateResponse`, restricted to the `ID` field. -/
structure ContainerCreateResp where
  id : String
deriving DecidableEq

/-- The external calls `RunPodSandbox` makes, as one observable event each
(the argument values the source passes are recorded). -/
inductive RunEvent where
  | pullImage (image : String)
  | createContainer
  | recoverConflict
  | createCheckpoint (id : String) (cp : PodSandboxCheckpoint)
  | startContainer (id : String)
  | setUpPod (ns nm id : String)
deriving DecidableEq

/-- The error returned by `RunPodSandbox`, tagged by the failing step.
`create none` is the `createResp == nil` case where `err` itself is nil. -/
inductive RunError where
  | pull (e : String)
  | makeConfig (e : String)
  | create (e : Option String)
  | checkpoint (e : String)
  | start (e : String)
  | network (e : String)
deriving DecidableEq

/-- Result of one `RunPodSandbox` call: the external calls made in order, the
returned id and the returned error. -/
structure RunResult where
  events : List RunEvent
  id : String
  err : Option RunError
deriving DecidableEq

/-- Outcomes of the external calls `RunPodSandbox` makes, one oracle per
call site: `PullImage`, `makeSandboxDockerConfig` (a source function whose
body delegates entirely to codec/backend helpers outside `src/`; only its
success is observable downstream), `CreateContainer` (a `(resp, err)` pair,
as in Go), `recoverFromCreationConflictIfNeeded` (consulted only when
creation failed), `CreateCheckpoint`, `StartContainer` and `SetUpPod`. -/
structure RunOracles where
  pullRes : Option String
  makeConfigRes : Except String Unit
  createRes : Option ContainerCreateResp × Option String
  recoverRes : Option ContainerCreateResp × Option String
  checkpointRes : Option String
  startRes : Option String
  setUpRes : Option String

/-- The backend record creation outcome after the conflict-recovery step:
`CreateContainer`'s response if it succeeded, otherwise the recovery call's
response if that succeeded, otherwise `none`. -/
def recordCreated (o : RunOracles) : Option ContainerCreateResp :=
  match o.createRes with
  | (resp, none) => resp
  | (_, some _) =>
      match o.recoverRes with
      | (resp, none) => resp
      | (_, some _) => none

/-- Whether `RunPodSandbox` fails before a backend record exists: image pull
failure, configuration translation failure, or unrecovered creation
failure. -/
def preRecordFailure (o : RunOracles) : Bool :=
  o.pullRes.isSome
  || (match o.makeConfigRes with | .error _ => true | .ok _ => false)
  || (recordCreated o).isNone

/-- The host-network namespace option of a config
(`nsOptions != nil && nsOptions.HostNetwork`). -/
def configHostNetwork (config : PodSandboxConfig) : Bool :=
  match config.nsOpts with
  | some opts => opts.hostNetwork
  | none => false

/-- `RunPodSandbox`: pull the (possibly overridden) sandbox image, translate
the configuration, create the backend record (with one conflict-recovery
retry), write the checkpoint, start the container, and — unless the config
shares the host network namespace — set up networking.  Failures before a
record exists return an empty id; afterwards the created id is returned
alongside the error. -/
def runPodSandbox (podSandboxImage : String) (config : PodSandboxConfig)
    (o : RunOracles) : RunResult :=
  let image := if podSandboxImage.length ≠ 0 then podSandboxImage else defaultSandboxImage
  match o.pullRes with
  | some e => { events := [.pullImage image], id := "", err := some (.pull e) }
  | none =>
    match o.makeConfigRes with
    | .error e => { events := [.pullImage image], id := "", err := some (.makeConfig e) }
    | .ok _ =>
      let recovered := o.createRes.2.isSome
      let afterCreate :=
        match o.createRes with
        | (resp, none) => (resp, (none : Option String))
        | (_, some _) => o.recoverRes
      let evBase :=
        [RunEvent.pullImage image, RunEvent.createContainer]
          ++ (if recovered then [RunEvent.recoverConflict] else [])
      match afterCreate with
      | (_, some e) => { events := evBase, id := "", err := some (.create (some e)) }
      | (none, none) => { events := evBase, id := "", err := some (.create none) }
      | (some resp, none) =>
        let cp := constructPodSandboxCheckpoint config
        let ev1 := evBase ++ [RunEvent.createCheckpoint resp.id cp]
        match o.checkpointRes with
        | some e => { events := ev1, id := resp.id, err := some (.checkpoint e) }
        | none =>
          let ev2 := ev1 ++ [RunEvent.startContainer resp.id]
          match o.startRes with
          | some e => { events := ev2, id := resp.id, err := some (.start e) }
          | none =>
            if configHostNetwork config then
              { events := ev2, id := resp.id, err := none }
            else
              let ev3 := ev2
                ++ [RunEvent.setUpPod config.metadata.ns config.metadata.name resp.id]
              match o.setUpRes with
              | some e => { events := ev3, id := resp.id, err := some (.network e) }
              | none => { events := ev3, id := resp.id, err := none }

/-- `runtimeapi.PodSandbox`, the lightweight summary form returned by
`ListPodSandbox`.  `createdAt` and `labels` default to their zero values so
that a checkpoint-synthesized record carries only id, metadata and state. -/
structure PodSandbox where
  id : String
  metadata : PodSandboxMetadata
  state : SandboxState
  createdAt : Int := 0
  labels : List (String × String) := []
deriving DecidableEq

/-- Modelled from the spec: `checkpointToRuntimeAPISandbox` (a helper outside
`src/`) — synthesize a minimal record carrying only the id, the checkpoint's
name and namespace, and state forced to NotReady (spec §4.3 step 5). -/
def checkpointToRuntimeAPISandbox (id : String) (cp : PodSandboxCheckpoint) : PodSandbox :=
  { id := id, metadata := { name := cp.name, ns := cp.ns }, state := .notReady }

/-- `runtimeapi.PodSandboxFilter`. -/
structure PodSandboxFilter where
  id : String := ""
  state : Option SandboxState := none
  labelSelector : List (String × String) := []
deriving DecidableEq

/-- An error aborting `ListPodSandbox`. -/
inductive ListError where
  | backend (e : DockerError)
  | legacy (e : String)
deriving DecidableEq

/-- The conversion loop of `ListPodSandbox` (source lines 350–362): each
backend container is converted by `containerToRuntimeAPISandbox` (the
conversion outcome is what the oracle list carries); failed conversions are
skipped, Ready records are dropped when the filter asked for NotReady, and
the ids of the kept records are collected. -/
def convertContainers (filterOutReady : Bool) :
    List (Except String PodSandbox) → List PodSandbox × List String
  | [] => ([], [])
  | .error _ :: rest => convertContainers filterOutReady rest
  | .ok s :: rest =>
      if filterOutReady = true ∧ s.state = SandboxState.ready then
        convertContainers filterOutReady rest
      else
        let tail := convertContainers filterOutReady rest
        (s :: tail.1, s.id :: tail.2)

/-- The checkpoint loop of `ListPodSandbox` (source lines 372–387): for each
id of the snapshotted checkpoint listing that is not already among the
converted ids, read the checkpoint; on a corrupted read remove it from the
store and skip it, on any other failure just skip it, otherwise append the
synthesized minimal record.  The store is threaded because removal is a side
effect. -/
def checkpointPhase (ids : List String) :
    List String → CheckpointStore → List PodSandbox × CheckpointStore
  | [], store => ([], store)
  | id :: rest, store =>
      if id ∈ ids then checkpointPhase ids rest store
      else
        match getCheckpoint store id with
        | .error e =>
            checkpointPhase ids rest
              (if e = CheckpointError.corrupt then removeCheckpoint store id else store)
        | .ok cp =>
            let tail := checkpointPhase ids rest store
            (checkpointToRuntimeAPISandbox id cp :: tail.1, tail.2)

/-- `ListPodSandbox`.  The docker-side filter construction (the sandbox type
label, the id filter and `opts.All`) only shapes the backend query, so it is
folded into the `containersRes` oracle (the query outcome: conversion inputs
for the returned containers).  Client-side, a NotReady state filter drops
Ready records; with no filter at all the checkpoint store is additionally
consulted; and while legacy cleanup is not done the legacy listing
(`legacyRes`, outcome of `ListLegacyPodSandbox`, outside `src/`) is appended
at the end. -/
def listPodSandbox (filter : Option PodSandboxFilter)
    (containersRes : Except DockerError (List (Except String PodSandbox)))
    (store : CheckpointStore) (legacyCleanupDone : Bool)
    (legacyRes : Except String (List PodSandbox)) :
    Except ListError (List PodSandbox × CheckpointStore) :=
  let filterOutReady :=
    match filter with
    | some f =>
        match f.state with
        | some SandboxState.notReady => true
        | _ => false
    | none => false
  match containersRes with
  | .error e => .error (.backend e)
  | .ok conv =>
    let converted := convertContainers filterOutReady conv
    let afterCp :=
      match filter with
      | none => checkpointPhase converted.2 (listCheckpoints store) store
      | some _ => ([], store)
    if legacyCleanupDone then
      .ok (converted.1 ++ afterCp.1, afterCp.2)
    else
      match legacyRes with
      | .error e => .error (.legacy e)
      | .ok legacySandboxes => .ok (converted.1 ++ afterCp.1 ++ legacySandboxes, afterCp.2)

/-- The successfully converted backend records, in order. -/
def okConverted : List (Except String PodSandbox) → List PodSandbox
  | [] => []
  | .error _ :: rest => okConverted rest
  | .ok s :: rest => s :: okConverted rest

/-- The ids of a record list. -/
def sandboxIds (l : List PodSandbox) : List String := l.map (·.id)

/-- Reference form of the checkpoint loop's output records: the minimal
records of the valid checkpoints whose ids are not among `ids`, in store
order. -/
def checkpointOnlyRecords (ids : List String) : CheckpointStore → List PodSandbox
  | [] => []
  | (id, p) :: rest =>
      if id ∈ ids then checkpointOnlyRecords ids rest
      else
        match p with
        | .valid cp => checkpointToRuntimeAPISandbox id cp :: checkpointOnlyRecords ids rest
        | .corrupt => checkpointOnlyRecords ids rest

/-- Reference form of the checkpoint loop's store side effect: corrupted
entries whose ids are not among `ids` are removed, everything else stays. -/
def purgeCorrupt (ids : List String) : CheckpointStore → CheckpointStore
  | [] => []
  | (id, p) :: rest =>
      if id ∈ ids then (id, p) :: purgeCorrupt ids rest
      else
        match p with
        | .valid cp => (id, .valid cp) :: purgeCorrupt ids rest
        | .corrupt => purgeCorrupt ids rest

/-- A concrete instantiation of the codec/plugin oracles, used to exercise
the status-path theorems on concrete inputs. -/
def witnessEnv : SandboxEnv :=
  { parseSandboxName := fun _ =>
      .ok { name := "web", ns := "default", uid := "uid1", attempt := 0 },
    convertLegacyNameAndLabels := fun _ _ =>
      .ok ("k8s_POD_web_default_uid1_0",
           [(containerTypeLabelKey, containerTypeLabelSandbox)]),
    extractLabels := fun l => (l, []),
    getNetworkNamespace := fun _ => "/proc/1234/ns/net",
    getPodNetworkStatus := fun _ _ _ => .ok (some "10.0.0.5") }

/-- A concrete inspected container without the container-type label (a legacy
record) on a bridge network, used to exercise the status-path theorems. -/
def witnessContainer : ContainerJSON :=
  { id := "c1", name := "k8s_POD.abc123", running := true,
    createdAt := .ok 100,
    labels := [("legacy", "yes")],
    hostConfig := some { networkMode := "bridge" },
    networkSettings := some { ipAddress := "172.17.0.2", globalIPv6Address := "" } }

/-- A concrete sandbox configuration (non-host-network), used to exercise
the Create-path theorems. -/
def witnessConfig : PodSandboxConfig :=
  { metadata := { name := "web", ns := "default" },
    nsOpts := some { hostNetwork := false },
    portMappings := [] }

/-- Concrete Create-path oracles where every external call succeeds. -/
def witnessRunOracles : RunOracles :=
  { pullRes := none, makeConfigRes := .ok (),
    createRes := (some { id := "id1" }, none), recoverRes := (none, none),
    checkpointRes := none, startRes := none, setUpRes := none }

/-- Concrete Create-path oracles where the checkpoint write fails after the
backend record was created. -/
def witnessRunOraclesCpFail : RunOracles :=
  { witnessRunOracles with checkpointRes := some "disk full" }

theorem checkpointPortMappings_eq_map (l : List PortMapping) :
    checkpointPortMappings l
      = l.map (fun pm =>
          { hostPort := pm.hostPort, containerPort := pm.containerPort,
            protocol := toCheckpointProtocol pm.protocol }) := by
  induction l with
  | nil => rfl
  | cons pm rest ih => simp [checkpointPortMappings, ih]

/-- C10: the checkpoint constructed by Create carries the config's
namespace and name, its port-mapping list is the element-wise translation of
the configured port mappings (hence preserves their order), and any protocol
value that is neither TCP nor UDP is silently recorded as TCP. -/
theorem constructPodSandboxCheckpoint_spec (config : PodSandboxConfig) :
    (constructPodSandboxCheckpoint config).ns = config.metadata.ns
    ∧ (constructPodSandboxCheckpoint config).name = config.metadata.name
    ∧ (constructPodSandboxCheckpoint config).data.portMappings
        = config.portMappings.map (fun pm =>
            { hostPort := pm.hostPort, containerPort := pm.containerPort,
              protocol := toCheckpointProtocol pm.protocol })
    ∧ (∀ p : Int, p ≠ Protocol_TCP → p ≠ Protocol_UDP →
        toCheckpointProtocol p = protocolTCP) := by
  refine ⟨rfl, rfl, ?_, ?_⟩
  · simpa [constructPodSandboxCheckpoint, NewPodSandboxCheckpoint] using
      checkpointPortMappings_eq_map config.portMappings
  · intro p h1 h2
    simp [toCheckpointProtocol, h1, h2]

/-- Witness for C10 at a concrete configuration: a port mapping with the
unknown protocol value 5 is recorded as TCP, in position. -/
theorem constructPodSandboxCheckpoint_spec_witness :
    (5 : Int) ≠ Protocol_TCP ∧ (5 : Int) ≠ Protocol_UDP
    ∧ toCheckpointProtocol 5 = protocolTCP
    ∧ (constructPodSandboxCheckpoint
        { metadata := { name := "web", ns := "default" },
          nsOpts := none,
          portMappings := [{ protocol := 5, containerPort := 80, hostPort := 8080 },
                           { protocol := 1, containerPort := 53, hostPort := 53 }] }
      ).data.portMappings
      = [{ hostPort := 8080, containerPort := 80, protocol := protocolTCP },
         { hostPort := 53, containerPort := 53, protocol := protocolUDP }] := by
  have h := constructPodSandboxCheckpoint_spec
    { metadata := { name := "web", ns := "default" },
      nsOpts := none,
      portMappings := [{ protocol := 5, containerPort := 80, hostPort := 8080 },
                       { protocol := 1, containerPort := 53, hostPort := 53 }] }
  refine ⟨by decide, by decide, h.2.2.2 5 (by decide) (by decide), ?_⟩
  rw [h.2.2.1]
  rfl

theorem stopTeardownPhase_props (ns nm : String) (need : Bool) (tdErr : Option String)
    (stopErr : Option DockerError) :
    (stopTeardownPhase ns nm need tdErr stopErr).earlyReturn = false
    ∧ (stopTeardownPhase ns nm need tdErr stopErr).stopAttempted = true
    ∧ (stopTeardownPhase ns nm need tdErr stopErr).errList
        = netErrPart (stopTeardownPhase ns nm need tdErr stopErr).tearDownArgs tdErr
          ++ stopErrPart stopErr
    ∧ (∀ e, stopErr = some e → IsContainerNotFoundError e = true →
        StopSubErr.backendStop e ∉ (stopTeardownPhase ns nm need tdErr stopErr).errList) := by
  refine ⟨rfl, rfl, ?_, ?_⟩
  · cases need <;> cases tdErr <;> simp [stopTeardownPhase, netErrPart, stopErrPart]
  · intro e he hnf
    subst he
    cases need <;> cases tdErr <;> simp [stopTeardownPhase, hnf]

/-- C1: when the backend status query inside Stop fails, Stop consults the
checkpoint store: if the checkpoint lookup also fails with not-found and the
backend failure is a container-not-found error, Stop proceeds with network
teardown forced, passing empty namespace/name; if the checkpoint lookup
fails for any other reason, or the backend failure is not a not-found error,
Stop aborts with both failures aggregated and performs no teardown; if the
checkpoint is found, Stop uses its namespace/name and forces teardown. -/
theorem stopPodSandbox_resolution (se : DockerError)
    (cpRes : Except CheckpointError PodSandboxCheckpoint)
    (tdErr : Option String) (stopErr : Option DockerError) :
    (∀ ce, cpRes = .error ce →
      ((IsContainerNotFoundError se = true ∧ ce = CheckpointError.notFound) →
        stopPodSandbox (.error se) cpRes tdErr stopErr
            = stopTeardownPhase "" "" true tdErr stopErr
          ∧ (stopPodSandbox (.error se) cpRes tdErr stopErr).tearDownArgs = some ("", ""))
      ∧ (¬(IsContainerNotFoundError se = true ∧ ce = CheckpointError.notFound) →
        stopPodSandbox (.error se) cpRes tdErr stopErr
          = { earlyReturn := true, tearDownArgs := none, stopAttempted := false,
              errList := [.checkpointGet ce, .statusGet se] }))
    ∧ (∀ cp, cpRes = .ok cp →
        (stopPodSandbox (.error se) cpRes tdErr stopErr).earlyReturn = false
        ∧ (stopPodSandbox (.error se) cpRes tdErr stopErr).tearDownArgs
            = some (cp.ns, cp.name)) := by
  constructor
  · intro ce hce
    subst hce
    constructor
    · intro h
      refine ⟨by simp [stopPodSandbox, if_pos h], ?_⟩
      simp [stopPodSandbox, if_pos h, stopTeardownPhase]
    · intro h
      simp [stopPodSandbox, if_neg h]
  · intro cp hcp
    subst hcp
    simp [stopPodSandbox, stopTeardownPhase]

/-- Witness for C1: with a container-not-found backend failure and a
not-found checkpoint lookup, Stop reaches the teardown phase with empty
namespace/name. -/
theorem stopPodSandbox_resolution_witness :
    IsContainerNotFoundError (.containerNotFound "no such container") = true
    ∧ (stopPodSandbox (.error (.containerNotFound "no such container"))
        (.error CheckpointError.notFound) none none).tearDownArgs = some ("", "") := by
  refine ⟨rfl, ?_⟩
  exact (((stopPodSandbox_resolution (.containerNotFound "no such container")
      (.error CheckpointError.notFound) none none).1 CheckpointError.notFound rfl).1
      ⟨rfl, rfl⟩).2

/-- C7: in every Stop call that reaches the teardown phase, the backend stop
is attempted (regardless of a network-teardown failure), the error list is
exactly the teardown failure (when teardown was attempted and failed)
followed by the backend-stop failure (unless it is a container-not-found
error, which is treated as success), and the aggregated result is nil
exactly when no error remains. -/
theorem stopPodSandbox_teardown (statusRes : Except DockerError PodSandboxStatusR)
    (cpRes : Except CheckpointError PodSandboxCheckpoint)
    (tdErr : Option String) (stopErr : Option DockerError)
    (h : (stopPodSandbox statusRes cpRes tdErr stopErr).earlyReturn = false) :
    (stopPodSandbox statusRes cpRes tdErr stopErr).stopAttempted = true
    ∧ (stopPodSandbox statusRes cpRes tdErr stopErr).errList
        = netErrPart (stopPodSandbox statusRes cpRes tdErr stopErr).tearDownArgs tdErr
          ++ stopErrPart stopErr
    ∧ (∀ e, stopErr = some e → IsContainerNotFoundError e = true →
        StopSubErr.backendStop e ∉ (stopPodSandbox statusRes cpRes tdErr stopErr).errList)
    ∧ (stopAggErr (stopPodSandbox statusRes cpRes tdErr stopErr) = none
        ↔ (stopPodSandbox statusRes cpRes tdErr stopErr).errList = []) := by
  have haggr : ∀ t : StopTrace, stopAggErr t = none ↔ t.errList = [] := by
    intro t
    unfold stopAggErr
    split <;> simp_all
  cases statusRes with
  | ok st =>
      have hp := stopTeardownPhase_props st.metadata.ns st.metadata.name
        (statusNeedsTearDown st) tdErr stopErr
      simp only [stopPodSandbox]
      exact ⟨hp.2.1, hp.2.2.1, hp.2.2.2, haggr _⟩
  | error se =>
      cases cpRes with
      | ok cp =>
          have hp := stopTeardownPhase_props cp.ns cp.name true tdErr stopErr
          simp only [stopPodSandbox]
          exact ⟨hp.2.1, hp.2.2.1, hp.2.2.2, haggr _⟩
      | error ce =>
          by_cases hc : IsContainerNotFoundError se = true ∧ ce = CheckpointError.notFound
          · have hp := stopTeardownPhase_props "" "" true tdErr stopErr
            simp only [stopPodSandbox, if_pos hc]
            exact ⟨hp.2.1, hp.2.2.1, hp.2.2.2, haggr _⟩
          · exfalso
            simp only [stopPodSandbox, if_neg hc] at h
            exact Bool.noConfusion h

/-- Witness for C7: a concrete Stop call where the network teardown fails and
the backend stop reports container-not-found still attempts the stop, keeps
only the teardown error, and aggregates it. -/
theorem stopPodSandbox_teardown_witness :
    (stopPodSandbox
        (.ok { id := "s1", state := .ready, createdAt := 0,
               metadata := { name := "web", ns := "default" },
               labels := [], annotations := [], ip := "", netNS := "",
               nsOpts := some { hostNetwork := false } })
        (.error CheckpointError.notFound)
        (some "teardown failed") (some (.containerNotFound "gone"))).earlyReturn = false
    ∧ (stopPodSandbox
        (.ok { id := "s1", state := .ready, createdAt := 0,
               metadata := { name := "web", ns := "default" },
               labels := [], annotations := [], ip := "", netNS := "",
               nsOpts := some { hostNetwork := false } })
        (.error CheckpointError.notFound)
        (some "teardown failed") (some (.containerNotFound "gone"))).stopAttempted = true
    ∧ (∀ e, some (DockerError.containerNotFound "gone") = some e →
        IsContainerNotFoundError e = true →
        StopSubErr.backendStop e ∉ (stopPodSandbox
          (.ok { id := "s1", state := .ready, createdAt := 0,
                 metadata := { name := "web", ns := "default" },
                 labels := [], annotations := [], ip := "", netNS := "",
                 nsOpts := some { hostNetwork := false } })
          (.error CheckpointError.notFound)
          (some "teardown failed") (some (.containerNotFound "gone"))).errList) := by
  have hp := stopPodSandbox_teardown
    (.ok { id := "s1", state := .ready, createdAt := 0,
           metadata := { name := "web", ns := "default" },
           labels := [], annotations := [], ip := "", netNS := "",
           nsOpts := some { hostNetwork := false } })
    (.error CheckpointError.notFound)
    (some "teardown failed") (some (.containerNotFound "gone")) rfl
  exact ⟨rfl, hp.1, hp.2.2.1⟩

/-- C3: Remove attempts both the backend-record removal and the checkpoint
removal unconditionally; a backend error appears in the aggregate exactly
when it is not a container-not-found error, a checkpoint-store error appears
exactly when the store I/O failed, and on an id with no backend record
(container-not-found) and no checkpoint the call succeeds with no error. -/
theorem removePodSandbox_spec (rcRes : Option DockerError) (store : CheckpointStore)
    (id : String) (ioErr : Option String) :
    ((removePodSandbox rcRes store id ioErr).1.removeContainerCalled = true
      ∧ (removePodSandbox rcRes store id ioErr).1.removeCheckpointCalled = true)
    ∧ (∀ e, RemoveSubErr.backend e ∈ (removePodSandbox rcRes store id ioErr).1.errList
        ↔ rcRes = some e ∧ IsContainerNotFoundError e = false)
    ∧ (∀ e, RemoveSubErr.checkpoint e ∈ (removePodSandbox rcRes store id ioErr).1.errList
        ↔ ioErr = some e)
    ∧ (∀ e, rcRes = some e → IsContainerNotFoundError e = true → ioErr = none →
        storeLookup store id = none →
        (removePodSandbox rcRes store id ioErr).1.errList = []) := by
  refine ⟨⟨rfl, rfl⟩, ?_, ?_, ?_⟩
  · intro e
    cases rcRes with
    | none => cases ioErr <;>
        simp [removePodSandbox, removeCheckpointHandler]
    | some e0 => cases e0 <;> cases e <;> cases ioErr <;>
        simp [removePodSandbox, removeCheckpointHandler, IsContainerNotFoundError, eq_comm]
  · intro e
    cases rcRes with
    | none => cases ioErr <;>
        simp [removePodSandbox, removeCheckpointHandler, eq_comm]
    | some e0 => cases e0 <;> cases ioErr <;>
        simp [removePodSandbox, removeCheckpointHandler, IsContainerNotFoundError, eq_comm]
  · intro e he hnf hio hlk
    subst he
    subst hio
    simp [removePodSandbox, removeCheckpointHandler, hnf]

/-- Witness for C3: removing an id with no backend record (container-not-found)
and an empty store returns no error, with both removals attempted. -/
theorem removePodSandbox_spec_witness :
    IsContainerNotFoundError (.containerNotFound "no such container") = true
    ∧ storeLookup [] "sandbox-a" = none
    ∧ (removePodSandbox (some (.containerNotFound "no such container")) [] "sandbox-a"
        none).1.errList = []
    ∧ (removePodSandbox (some (.containerNotFound "no such container")) [] "sandbox-a"
        none).1.removeContainerCalled = true := by
  have hp := removePodSandbox_spec (some (.containerNotFound "no such container"))
    [] "sandbox-a" none
  exact ⟨rfl, rfl,
    hp.2.2.2 (.containerNotFound "no such container") rfl rfl rfl rfl, hp.1.1⟩

/-- C5: the IP reported for a backend sandbox record follows the precedence
host-network ⇒ empty; otherwise a non-empty plugin answer; otherwise the
backend IPv4, then the backend IPv6, then empty. -/
theorem getIP_precedence (env : SandboxEnv) (sandbox : ContainerJSON) :
    (sharesHostNetwork sandbox = true → getIP env sandbox = "")
    ∧ (∀ settings, sandbox.networkSettings = some settings →
        sharesHostNetwork sandbox = false →
        ((∀ ip, getIPFromPlugin env sandbox = .ok ip → ip ≠ "" → getIP env sandbox = ip)
         ∧ ((getIPFromPlugin env sandbox = .ok ""
              ∨ ∃ e, getIPFromPlugin env sandbox = .error e) →
             getIP env sandbox =
               (if settings.ipAddress ≠ "" then settings.ipAddress
                else settings.globalIPv6Address)))) := by
  constructor
  · intro hh
    cases hns : sandbox.networkSettings <;> simp [getIP, hns, hh]
  · intro settings hset hh
    constructor
    · intro ip hip hne
      simp [getIP, hset, hh, hip, hne]
    · intro hfb
      rcases hfb with hok | ⟨e, herr⟩
      · simp [getIP, hset, hh, hok]
      · simp [getIP, hset, hh, herr]

/-- Witness for C5: with a plugin answering 10.0.0.5 and a backend IPv4 of
172.17.0.2 on a non-host-network sandbox, the plugin answer wins. -/
theorem getIP_precedence_witness :
    witnessContainer.networkSettings
        = some { ipAddress := "172.17.0.2", globalIPv6Address := "" }
    ∧ sharesHostNetwork witnessContainer = false
    ∧ getIPFromPlugin witnessEnv witnessContainer = .ok "10.0.0.5"
    ∧ getIP witnessEnv witnessContainer = "10.0.0.5" := by
  refine ⟨rfl, rfl, rfl, ?_⟩
  exact ((getIP_precedence witnessEnv witnessContainer).2
    { ipAddress := "172.17.0.2", globalIPv6Address := "" } rfl rfl).1
    "10.0.0.5" rfl (by decide)

/-- C6: a backend record whose label map lacks the container-type label has
its name and labels routed through the legacy decoder and rewritten to the
structured form, and its host-network flag inverted exactly once relative to
what a record with the type label and the same backend network mode reports;
a record carrying the type label gets neither transformation. -/
theorem podSandboxStatus_legacy (env : SandboxEnv) (r : ContainerJSON) (ct : Int)
    (hct : r.createdAt = .ok ct) :
    (∀ name' labels' md,
      lookupLabel r.labels containerTypeLabelKey = none →
      env.convertLegacyNameAndLabels r.name r.labels = .ok (name', labels') →
      env.parseSandboxName name' = .ok md →
      podSandboxStatus env (.ok r)
        = .ok { id := r.id,
                state := if r.running then SandboxState.ready else SandboxState.notReady,
                createdAt := ct, metadata := md,
                labels := (env.extractLabels labels').1,
                annotations := (env.extractLabels labels').2,
                ip := getIP env r, netNS := env.getNetworkNamespace r,
                nsOpts := some { hostNetwork := !sharesHostNetwork r } })
    ∧ (∀ v md,
      lookupLabel r.labels containerTypeLabelKey = some v →
      env.parseSandboxName r.name = .ok md →
      podSandboxStatus env (.ok r)
        = .ok { id := r.id,
                state := if r.running then SandboxState.ready else SandboxState.notReady,
                createdAt := ct, metadata := md,
                labels := (env.extractLabels r.labels).1,
                annotations := (env.extractLabels r.labels).2,
                ip := getIP env r, netNS := env.getNetworkNamespace r,
                nsOpts := some { hostNetwork := sharesHostNetwork r } }) := by
  constructor
  · intro name' labels' md hlab hconv hparse
    simp [podSandboxStatus, hct, hlab, hconv, finishStatus, hparse]
  · intro v md hlab hparse
    simp [podSandboxStatus, hct, hlab, finishStatus, hparse]

/-- Witness for C6: a concrete legacy record (no type label) gets the decoded
structured identity and the inverted host-network flag. -/
theorem podSandboxStatus_legacy_witness :
    lookupLabel witnessContainer.labels containerTypeLabelKey = none
    ∧ podSandboxStatus witnessEnv (.ok witnessContainer)
        = .ok { id := witnessContainer.id,
                state := if witnessContainer.running then SandboxState.ready
                         else SandboxState.notReady,
                createdAt := 100,
                metadata := { name := "web", ns := "default", uid := "uid1", attempt := 0 },
                labels := (witnessEnv.extractLabels
                  [(containerTypeLabelKey, containerTypeLabelSandbox)]).1,
                annotations := (witnessEnv.extractLabels
                  [(containerTypeLabelKey, containerTypeLabelSandbox)]).2,
                ip := getIP witnessEnv witnessContainer,
                netNS := witnessEnv.getNetworkNamespace witnessContainer,
                nsOpts := some { hostNetwork := !sharesHostNetwork witnessContainer } } := by
  refine ⟨rfl, ?_⟩
  exact (podSandboxStatus_legacy witnessEnv witnessContainer 100 rfl).1
    "k8s_POD_web_default_uid1_0" [(containerTypeLabelKey, containerTypeLabelSandbox)]
    { name := "web", ns := "default", uid := "uid1", attempt := 0 } rfl rfl rfl

/-- C8: Create returns an empty id exactly when it fails before a backend
record exists (pull failure, configuration-translation failure, or
unrecovered creation failure); once the record exists the created id is
returned, and the error is nil exactly when no later step (checkpoint write,
start, network setup — the latter skipped on host network) failed. -/
theorem runPodSandbox_id_iff (img : String) (config : PodSandboxConfig) (o : RunOracles)
    (hid : ∀ resp, recordCreated o = some resp → resp.id ≠ "") :
    ((runPodSandbox img config o).id = "" ↔ preRecordFailure o = true)
    ∧ (∀ resp, o.pullRes = none → o.makeConfigRes = .ok () →
        recordCreated o = some resp →
        (runPodSandbox img config o).id = resp.id
        ∧ ((runPodSandbox img config o).err = none ↔
            (o.checkpointRes = none ∧ o.startRes = none
              ∧ (configHostNetwork config = true ∨ o.setUpRes = none)))) := by
  obtain ⟨pull, mk, ⟨resp0, err0⟩, ⟨respr, errr⟩, cpr, str, sur⟩ := o
  cases pull with
  | some e => simp [runPodSandbox, preRecordFailure]
  | none =>
  cases mk with
  | error e => simp [runPodSandbox, preRecordFailure]
  | ok u =>
  cases err0 with
  | none =>
    cases resp0 with
    | none => simp [runPodSandbox, preRecordFailure, recordCreated]
    | some resp =>
      have hne : resp.id ≠ "" := hid resp (by simp [recordCreated])
      cases cpr <;> cases str <;> cases sur <;> cases hhn : configHostNetwork config <;>
        simp [runPodSandbox, preRecordFailure, recordCreated, hne, hhn]
  | some e0 =>
    cases errr with
    | some e1 => simp [runPodSandbox, preRecordFailure, recordCreated]
    | none =>
      cases respr with
      | none => simp [runPodSandbox, preRecordFailure, recordCreated]
      | some resp =>
        have hne : resp.id ≠ "" := hid resp (by simp [recordCreated])
        cases cpr <;> cases str <;> cases sur <;> cases hhn : configHostNetwork config <;>
          simp [runPodSandbox, preRecordFailure, recordCreated, hne, hhn]

/-- Witness for C8: with a non-empty created id and a failing checkpoint
write, Create does not return an empty id (no pre-record failure). -/
theorem runPodSandbox_id_iff_witness :
    (∀ resp, recordCreated witnessRunOraclesCpFail = some resp → resp.id ≠ "")
    ∧ ((runPodSandbox "" witnessConfig witnessRunOraclesCpFail).id = ""
        ↔ preRecordFailure witnessRunOraclesCpFail = true) := by
  have hid : ∀ resp, recordCreated witnessRunOraclesCpFail = some resp → resp.id ≠ "" := by
    intro resp h
    cases Option.some.inj h
    decide
  exact ⟨hid, (runPodSandbox_id_iff "" witnessConfig witnessRunOraclesCpFail hid).1⟩

/-- C9: in every successful Create, the checkpoint write for the new id
happens after the backend record creation and strictly before the backend
start (and before any network-plugin setup), and setup is skipped entirely
for a host-network config. -/
theorem runPodSandbox_checkpoint_order (img : String) (config : PodSandboxConfig)
    (o : RunOracles) (hsucc : (runPodSandbox img config o).err = none) :
    ∃ resp ev₀ ev₂,
      recordCreated o = some resp
      ∧ (runPodSandbox img config o).events
          = ev₀ ++ [RunEvent.createCheckpoint resp.id (constructPodSandboxCheckpoint config),
                    RunEvent.startContainer resp.id] ++ ev₂
      ∧ RunEvent.createContainer ∈ ev₀
      ∧ (∀ a b c, RunEvent.setUpPod a b c ∉ ev₀)
      ∧ (configHostNetwork config = true → ev₂ = [])
      ∧ (configHostNetwork config = false →
          ev₂ = [RunEvent.setUpPod config.metadata.ns config.metadata.name resp.id]) := by
  obtain ⟨pull, mk, ⟨resp0, err0⟩, ⟨respr, errr⟩, cpr, str, sur⟩ := o
  cases pull with
  | some e => simp [runPodSandbox] at hsucc
  | none =>
  cases mk with
  | error e => simp [runPodSandbox] at hsucc
  | ok u =>
  cases err0 with
  | none =>
    cases resp0 with
    | none => simp [runPodSandbox] at hsucc
    | some resp =>
      cases cpr with
      | some e => simp [runPodSandbox] at hsucc
      | none =>
      cases str with
      | some e => simp [runPodSandbox] at hsucc
      | none =>
      cases hhn : configHostNetwork config with
      | true =>
          refine ⟨resp,
            [RunEvent.pullImage (if img.length ≠ 0 then img else defaultSandboxImage),
             RunEvent.createContainer], [],
            by simp [recordCreated], by simp [runPodSandbox, hhn], by simp,
            ?_, fun _ => rfl, ?_⟩
          · intro a b c
            simp
          · intro hfalse
            exact Bool.noConfusion hfalse
      | false =>
          cases sur with
          | some e => simp [runPodSandbox, hhn] at hsucc
          | none =>
            refine ⟨resp,
              [RunEvent.pullImage (if img.length ≠ 0 then img else defaultSandboxImage),
               RunEvent.createContainer],
              [RunEvent.setUpPod config.metadata.ns config.metadata.name resp.id],
              by simp [recordCreated], by simp [runPodSandbox, hhn], by simp,
              ?_, ?_, fun _ => rfl⟩
            · intro a b c
              simp
            · intro htrue
              exact Bool.noConfusion htrue
  | some e0 =>
    cases errr with
    | some e1 => simp [runPodSandbox] at hsucc
    | none =>
      cases respr with
      | none => simp [runPodSandbox] at hsucc
      | some resp =>
        cases cpr with
        | some e => simp [runPodSandbox] at hsucc
        | none =>
        cases str with
        | some e => simp [runPodSandbox] at hsucc
        | none =>
        cases hhn : configHostNetwork config with
        | true =>
            refine ⟨resp,
              [RunEvent.pullImage (if img.length ≠ 0 then img else defaultSandboxImage),
               RunEvent.createContainer, RunEvent.recoverConflict], [],
              by simp [recordCreated], by simp [runPodSandbox, hhn], by simp,
              ?_, fun _ => rfl, ?_⟩
            · intro a b c
              simp
            · intro hfalse
              exact Bool.noConfusion hfalse
        | false =>
            cases sur with
            | some e => simp [runPodSandbox, hhn] at hsucc
            | none =>
              refine ⟨resp,
                [RunEvent.pullImage (if img.length ≠ 0 then img else defaultSandboxImage),
                 RunEvent.createContainer, RunEvent.recoverConflict],
                [RunEvent.setUpPod config.metadata.ns config.metadata.name resp.id],
                by simp [recordCreated], by simp [runPodSandbox, hhn], by simp,
                ?_, ?_, fun _ => rfl⟩
              · intro a b c
                simp
              · intro htrue
                exact Bool.noConfusion htrue

/-- Witness for C9: a concrete fully successful Create exhibits the ordered
event trace with the checkpoint write between creation and start. -/
theorem runPodSandbox_checkpoint_order_witness :
    (runPodSandbox "" witnessConfig witnessRunOracles).err = none
    ∧ ∃ resp ev₀ ev₂,
        recordCreated witnessRunOracles = some resp
        ∧ (runPodSandbox "" witnessConfig witnessRunOracles).events
            = ev₀ ++ [RunEvent.createCheckpoint resp.id
                        (constructPodSandboxCheckpoint witnessConfig),
                      RunEvent.startContainer resp.id] ++ ev₂
        ∧ RunEvent.createContainer ∈ ev₀
        ∧ (∀ a b c, RunEvent.setUpPod a b c ∉ ev₀)
        ∧ (configHostNetwork witnessConfig = true → ev₂ = [])
        ∧ (configHostNetwork witnessConfig = false →
            ev₂ = [RunEvent.setUpPod witnessConfig.metadata.ns
                     witnessConfig.metadata.name resp.id]) := by
  exact ⟨rfl, runPodSandbox_checkpoint_order "" witnessConfig witnessRunOracles rfl⟩

theorem convertContainers_false (l : List (Except String PodSandbox)) :
    convertContainers false l = (okConverted l, sandboxIds (okConverted l)) := by
  induction l with
  | nil => rfl
  | cons c rest ih =>
    cases c with
    | error e => simpa [convertContainers, okConverted] using ih
    | ok s => simp [convertContainers, okConverted, sandboxIds, ih]

theorem mem_storeKeys_of_mem :
    ∀ {store : CheckpointStore} {id : String} {p : StoredPayload},
      (id, p) ∈ store → id ∈ storeKeys store := by
  intro store
  induction store with
  | nil => intro id p h; cases h
  | cons e rest ih =>
    intro id p h
    obtain ⟨k, v⟩ := e
    simp only [storeKeys, List.mem_cons]
    rcases List.mem_cons.mp h with he | hm
    · injection he with h1 _
      exact Or.inl h1
    · exact Or.inr (ih hm)

theorem storeLookup_eq_none_of_not_mem :
    ∀ {store : CheckpointStore} {id : String},
      id ∉ storeKeys store → storeLookup store id = none := by
  intro store
  induction store with
  | nil => intro id _; rfl
  | cons e rest ih =>
    intro id h
    obtain ⟨k, v⟩ := e
    simp only [storeKeys, List.mem_cons, not_or] at h
    simp [storeLookup, Ne.symm h.1, ih h.2]

theorem removeCheckpoint_eq_of_not_mem :
    ∀ {store : CheckpointStore} {id : String},
      id ∉ storeKeys store → removeCheckpoint store id = store := by
  intro store
  induction store with
  | nil => intro id _; rfl
  | cons e rest ih =>
    intro id h
    obtain ⟨k, v⟩ := e
    simp only [storeKeys, List.mem_cons, not_or] at h
    simp [removeCheckpoint, Ne.symm h.1, ih h.2]

theorem getCheckpoint_cons_ne {k id : String} (v : StoredPayload) (s : CheckpointStore)
    (hne : k ≠ id) : getCheckpoint ((k, v) :: s) id = getCheckpoint s id := by
  simp [getCheckpoint, storeLookup, hne]

theorem removeCheckpoint_cons_ne {k id : String} (v : StoredPayload) (s : CheckpointStore)
    (hne : k ≠ id) : removeCheckpoint ((k, v) :: s) id = (k, v) :: removeCheckpoint s id := by
  simp [removeCheckpoint, hne]

theorem store_mem_unique :
    ∀ {store : CheckpointStore} {id : String} {p q : StoredPayload},
      (storeKeys store).Nodup → (id, p) ∈ store → (id, q) ∈ store → p = q := by
  intro store
  induction store with
  | nil => intro id p q _ h1; cases h1
  | cons e rest ih =>
    intro id p q hnd h1 h2
    obtain ⟨k, v⟩ := e
    have hk : k ∉ storeKeys rest := (List.nodup_cons.mp hnd).1
    have hrest : (storeKeys rest).Nodup := (List.nodup_cons.mp hnd).2
    rcases List.mem_cons.mp h1 with he1 | hm1 <;> rcases List.mem_cons.mp h2 with he2 | hm2
    · injection he1 with _ hv1
      injection he2 with _ hv2
      rw [hv1, hv2]
    · injection he1 with hk1 hv1
      exact absurd (mem_storeKeys_of_mem hm2) (hk1 ▸ hk)
    · injection he2 with hk2 hv2
      exact absurd (mem_storeKeys_of_mem hm1) (hk2 ▸ hk)
    · exact ih hrest hm1 hm2

theorem checkpointPhase_cons_foreign (ids : List String) :
    ∀ (keys : List String) (store : CheckpointStore) (id : String) (p : StoredPayload),
      id ∉ keys →
      checkpointPhase ids keys ((id, p) :: store)
        = ((checkpointPhase ids keys store).1,
           (id, p) :: (checkpointPhase ids keys store).2) := by
  intro keys
  induction keys with
  | nil => intro store id p _; rfl
  | cons k rest ih =>
    intro store id p h
    simp only [List.mem_cons, not_or] at h
    obtain ⟨hne, hrest⟩ := h
    by_cases hk : k ∈ ids
    · simp only [checkpointPhase, if_pos hk]
      exact ih store id p hrest
    · cases hres : getCheckpoint store k with
      | error e =>
          by_cases he : e = CheckpointError.corrupt
          · subst he
            simp only [checkpointPhase, if_neg hk,
              getCheckpoint_cons_ne p store hne, hres]
            rw [if_pos trivial, if_pos trivial, removeCheckpoint_cons_ne p store hne]
            exact ih (removeCheckpoint store k) id p hrest
          · simp only [checkpointPhase, if_neg hk,
              getCheckpoint_cons_ne p store hne, hres]
            rw [if_neg he, if_neg he]
            exact ih store id p hrest
      | ok cp =>
          simp only [checkpointPhase, if_neg hk,
            getCheckpoint_cons_ne p store hne, hres]
          rw [ih store id p hrest]

theorem checkpointPhase_spec (ids : List String) :
    ∀ (store : CheckpointStore), (storeKeys store).Nodup →
      checkpointPhase ids (storeKeys store) store
        = (checkpointOnlyRecords ids store, purgeCorrupt ids store) := by
  intro store
  induction store with
  | nil => intro _; rfl
  | cons e rest ih =>
    intro hnd
    obtain ⟨id, p⟩ := e
    have hnotin : id ∉ storeKeys rest := (List.nodup_cons.mp hnd).1
    have hrest : (storeKeys rest).Nodup := (List.nodup_cons.mp hnd).2
    show checkpointPhase ids (id :: storeKeys rest) ((id, p) :: rest) = _
    by_cases hid : id ∈ ids
    · simp only [checkpointPhase, if_pos hid]
      rw [checkpointPhase_cons_foreign ids (storeKeys rest) rest id p hnotin, ih hrest]
      simp [checkpointOnlyRecords, purgeCorrupt, if_pos hid]
    · cases p with
      | corrupt =>
          have hget : getCheckpoint ((id, StoredPayload.corrupt) :: rest) id
              = .error CheckpointError.corrupt := by
            simp [getCheckpoint, storeLookup]
          have hrm : removeCheckpoint ((id, StoredPayload.corrupt) :: rest) id = rest := by
            simp [removeCheckpoint, removeCheckpoint_eq_of_not_mem hnotin]
          simp only [checkpointPhase, if_neg hid, hget]
          rw [if_pos trivial, hrm, ih hrest]
          simp [checkpointOnlyRecords, purgeCorrupt, if_neg hid]
      | valid cp =>
          have hget : getCheckpoint ((id, StoredPayload.valid cp) :: rest) id
              = .ok cp := by
            simp [getCheckpoint, storeLookup]
          simp only [checkpointPhase, if_neg hid, hget]
          rw [checkpointPhase_cons_foreign ids (storeKeys rest) rest id
            (StoredPayload.valid cp) hnotin, ih hrest]
          simp [checkpointOnlyRecords, purgeCorrupt, if_neg hid]

theorem listPodSandbox_no_filter (conv : List (Except String PodSandbox))
    (store : CheckpointStore) (legacyCleanupDone : Bool) (ls : List PodSandbox)
    (hkeys : (storeKeys store).Nodup) :
    listPodSandbox none (.ok conv) store legacyCleanupDone (.ok ls)
      = .ok (okConverted conv
              ++ checkpointOnlyRecords (sandboxIds (okConverted conv)) store
              ++ (if legacyCleanupDone then [] else ls),
             purgeCorrupt (sandboxIds (okConverted conv)) store) := by
  simp only [listPodSandbox, listCheckpoints, convertContainers_false conv,
    checkpointPhase_spec (sandboxIds (okConverted conv)) store hkeys]
  cases legacyCleanupDone <;> simp

theorem mem_okConverted :
    ∀ {conv : List (Except String PodSandbox)} {s : PodSandbox},
      Except.ok s ∈ conv → s ∈ okConverted conv := by
  intro conv
  induction conv with
  | nil => intro s h; cases h
  | cons c rest ih =>
    intro s h
    rcases List.mem_cons.mp h with he | hm
    · cases c with
      | error e => exact absurd he (by simp)
      | ok s' =>
          injection he.symm with h1
          simp [okConverted, h1]
    · cases c with
      | error e => exact ih hm
      | ok s' => exact List.mem_cons_of_mem _ (ih hm)

theorem mem_checkpointOnlyRecords :
    ∀ {store : CheckpointStore} {ids : List String} {id : String} {cp : PodSandboxCheckpoint},
      (id, StoredPayload.valid cp) ∈ store → id ∉ ids →
      checkpointToRuntimeAPISandbox id cp ∈ checkpointOnlyRecords ids store := by
  intro store
  induction store with
  | nil => intro ids id cp h; cases h
  | cons e rest ih =>
    intro ids id cp h hid
    obtain ⟨k, v⟩ := e
    rcases List.mem_cons.mp h with he | hm
    · injection he with h1 h2
      subst h1
      rw [← h2]
      simp [checkpointOnlyRecords, if_neg hid]
    · by_cases hk : k ∈ ids
      · simpa [checkpointOnlyRecords, if_pos hk] using ih hm hid
      · cases v with
        | valid cp' =>
            simp only [checkpointOnlyRecords, if_neg hk]
            exact List.mem_cons_of_mem _ (ih hm hid)
        | corrupt =>
            simpa [checkpointOnlyRecords, if_neg hk] using ih hm hid

theorem mem_checkpointOnly_ids :
    ∀ {store : CheckpointStore} {ids : List String} {x : String},
      x ∈ sandboxIds (checkpointOnlyRecords ids store) →
      x ∉ ids ∧ ∃ cp, (x, StoredPayload.valid cp) ∈ store := by
  intro store
  induction store with
  | nil => intro ids x h; cases h
  | cons e rest ih =>
    intro ids x h
    obtain ⟨k, v⟩ := e
    by_cases hk : k ∈ ids
    · rw [show checkpointOnlyRecords ids ((k, v) :: rest)
          = checkpointOnlyRecords ids rest by simp [checkpointOnlyRecords, if_pos hk]] at h
      obtain ⟨h1, cp, h2⟩ := ih h
      exact ⟨h1, cp, List.mem_cons_of_mem _ h2⟩
    · cases v with
      | valid cp' =>
          rw [show checkpointOnlyRecords ids ((k, StoredPayload.valid cp') :: rest)
              = checkpointToRuntimeAPISandbox k cp' :: checkpointOnlyRecords ids rest by
            simp [checkpointOnlyRecords, if_neg hk]] at h
          rcases List.mem_cons.mp h with he | hm
          · have hx : x = k := he
            subst hx
            exact ⟨hk, cp', List.mem_cons_self _ _⟩
          · obtain ⟨h1, cp, h2⟩ := ih hm
            exact ⟨h1, cp, List.mem_cons_of_mem _ h2⟩
      | corrupt =>
          rw [show checkpointOnlyRecords ids ((k, StoredPayload.corrupt) :: rest)
              = checkpointOnlyRecords ids rest by
            simp [checkpointOnlyRecords, if_neg hk]] at h
          obtain ⟨h1, cp, h2⟩ := ih h
          exact ⟨h1, cp, List.mem_cons_of_mem _ h2⟩

theorem checkpointOnly_ids_sublist (ids : List String) :
    ∀ (store : CheckpointStore),
      (sandboxIds (checkpointOnlyRecords ids store)).Sublist (storeKeys store) := by
  intro store
  induction store with
  | nil => exact List.Sublist.refl _
  | cons e rest ih =>
    obtain ⟨k, v⟩ := e
    by_cases hk : k ∈ ids
    · rw [show checkpointOnlyRecords ids ((k, v) :: rest)
          = checkpointOnlyRecords ids rest by simp [checkpointOnlyRecords, if_pos hk]]
      exact ih.cons k
    · cases v with
      | valid cp =>
          rw [show checkpointOnlyRecords ids ((k, StoredPayload.valid cp) :: rest)
              = checkpointToRuntimeAPISandbox k cp :: checkpointOnlyRecords ids rest by
            simp [checkpointOnlyRecords, if_neg hk]]
          exact ih.cons₂ k
      | corrupt =>
          rw [show checkpointOnlyRecords ids ((k, StoredPayload.corrupt) :: rest)
              = checkpointOnlyRecords ids rest by
            simp [checkpointOnlyRecords, if_neg hk]]
          exact ih.cons k

theorem purgeCorrupt_of_valid (ids : List String) :
    ∀ (store : CheckpointStore),
      (∀ e ∈ store, e.2 ≠ StoredPayload.corrupt) → purgeCorrupt ids store = store := by
  intro store
  induction store with
  | nil => intro _; rfl
  | cons e rest ih =>
    intro hv
    obtain ⟨k, v⟩ := e
    have hrest : ∀ e ∈ rest, e.2 ≠ StoredPayload.corrupt :=
      fun e he => hv e (List.mem_cons_of_mem _ he)
    cases v with
    | corrupt => exact absurd rfl (hv (k, StoredPayload.corrupt) (List.mem_cons_self _ _))
    | valid cp =>
        by_cases hk : k ∈ ids
        · simp [purgeCorrupt, if_pos hk, ih hrest]
        · simp [purgeCorrupt, if_neg hk, ih hrest]

theorem purge_keeps_valid :
    ∀ {store : CheckpointStore} {ids : List String} {id : String} {cp : PodSandboxCheckpoint},
      (id, StoredPayload.valid cp) ∈ store →
      (id, StoredPayload.valid cp) ∈ purgeCorrupt ids store := by
  intro store
  induction store with
  | nil => intro ids id cp h; cases h
  | cons e rest ih =>
    intro ids id cp h
    obtain ⟨k, v⟩ := e
    rcases List.mem_cons.mp h with he | hm
    · injection he with h1 h2
      subst h1
      subst h2
      by_cases hk : id ∈ ids
      · simp [purgeCorrupt, if_pos hk]
      · simp [purgeCorrupt, if_neg hk]
    · by_cases hk : k ∈ ids
      · simp only [purgeCorrupt, if_pos hk]
        exact List.mem_cons_of_mem _ (ih hm)
      · cases v with
        | valid cp' =>
            simp only [purgeCorrupt, if_neg hk]
            exact List.mem_cons_of_mem _ (ih hm)
        | corrupt =>
            simpa [purgeCorrupt, if_neg hk] using ih hm

theorem purge_keys_sublist (ids : List String) :
    ∀ (store : CheckpointStore),
      (storeKeys (purgeCorrupt ids store)).Sublist (storeKeys store) := by
  intro store
  induction store with
  | nil => exact List.Sublist.refl _
  | cons e rest ih =>
    obtain ⟨k, v⟩ := e
    by_cases hk : k ∈ ids
    · rw [show purgeCorrupt ids ((k, v) :: rest) = (k, v) :: purgeCorrupt ids rest by
        simp [purgeCorrupt, if_pos hk]]
      exact ih.cons₂ k
    · cases v with
      | valid cp =>
          rw [show purgeCorrupt ids ((k, StoredPayload.valid cp) :: rest)
              = (k, StoredPayload.valid cp) :: purgeCorrupt ids rest by
            simp [purgeCorrupt, if_neg hk]]
          exact ih.cons₂ k
      | corrupt =>
          rw [show purgeCorrupt ids ((k, StoredPayload.corrupt) :: rest)
              = purgeCorrupt ids rest by simp [purgeCorrupt, if_neg hk]]
          exact ih.cons k

theorem purge_lookup_corrupt :
    ∀ {store : CheckpointStore} {ids : List String} {id0 : String},
      (storeKeys store).Nodup → (id0, StoredPayload.corrupt) ∈ store → id0 ∉ ids →
      storeLookup (purgeCorrupt ids store) id0 = none := by
  intro store
  induction store with
  | nil => intro ids id0 _ h; cases h
  | cons e rest ih =>
    intro ids id0 hnd hcor hid
    obtain ⟨k, v⟩ := e
    have hk : k ∉ storeKeys rest := (List.nodup_cons.mp hnd).1
    have hrest : (storeKeys rest).Nodup := (List.nodup_cons.mp hnd).2
    rcases List.mem_cons.mp hcor with he | hm
    · injection he with h1 h2
      subst h1
      subst h2
      simp only [purgeCorrupt, if_neg hid]
      exact storeLookup_eq_none_of_not_mem
        (fun hmem => hk ((purge_keys_sublist ids rest).subset hmem))
    · have hne : k ≠ id0 := by
        intro he
        exact hk (he ▸ mem_storeKeys_of_mem hm)
      by_cases hki : k ∈ ids
      · simp only [purgeCorrupt, if_pos hki, storeLookup, if_neg hne]
        exact ih hrest hm hid
      · cases v with
        | valid cp =>
            simp only [purgeCorrupt, if_neg hki, storeLookup, if_neg hne]
            exact ih hrest hm hid
        | corrupt =>
            simp only [purgeCorrupt, if_neg hki]
            exact ih hrest hm hid

theorem sandboxIds_append (l₁ l₂ : List PodSandbox) :
    sandboxIds (l₁ ++ l₂) = sandboxIds l₁ ++ sandboxIds l₂ :=
  List.map_append _ _ _

/-- C2: with no filter, List returns exactly the successfully converted
backend records, then the minimal records synthesized from the checkpoints
with no matching backend entry, then (when legacy cleanup is not done) the
legacy sandboxes; every such entry appears and no id appears twice. -/
theorem listPodSandbox_complete (conv : List (Except String PodSandbox))
    (store : CheckpointStore) (legacyCleanupDone : Bool) (ls : List PodSandbox)
    (hconv : (sandboxIds (okConverted conv)).Nodup)
    (hkeys : (storeKeys store).Nodup)
    (hvalid : ∀ e ∈ store, e.2 ≠ StoredPayload.corrupt)
    (hls : (sandboxIds ls).Nodup)
    (hdisj : ∀ s ∈ ls, s.id ∉ sandboxIds (okConverted conv) ∧ s.id ∉ storeKeys store) :
    listPodSandbox none (.ok conv) store legacyCleanupDone (.ok ls)
      = .ok (okConverted conv
              ++ checkpointOnlyRecords (sandboxIds (okConverted conv)) store
              ++ (if legacyCleanupDone then [] else ls),
             store)
    ∧ (∀ s, Except.ok s ∈ conv → s ∈ okConverted conv)
    ∧ (∀ id cp, (id, StoredPayload.valid cp) ∈ store →
        id ∉ sandboxIds (okConverted conv) →
        checkpointToRuntimeAPISandbox id cp
          ∈ checkpointOnlyRecords (sandboxIds (okConverted conv)) store)
    ∧ (sandboxIds (okConverted conv
        ++ checkpointOnlyRecords (sandboxIds (okConverted conv)) store
        ++ (if legacyCleanupDone then [] else ls))).Nodup := by
  refine ⟨?_, fun s hs => mem_okConverted hs,
    fun id cp hm hid => mem_checkpointOnlyRecords hm hid, ?_⟩
  · rw [listPodSandbox_no_filter conv store legacyCleanupDone ls hkeys,
      purgeCorrupt_of_valid (sandboxIds (okConverted conv)) store hvalid]
  · rw [sandboxIds_append, sandboxIds_append, List.nodup_append, List.nodup_append]
    have hcpid := fun {x} (hx : x ∈ sandboxIds (checkpointOnlyRecords
        (sandboxIds (okConverted conv)) store)) => mem_checkpointOnly_ids hx
    refine ⟨⟨hconv, (checkpointOnly_ids_sublist _ store).nodup hkeys, ?_⟩, ?_, ?_⟩
    · intro x hx hx2
      exact (hcpid hx2).1 hx
    · cases legacyCleanupDone with
      | true => simp [sandboxIds]
      | false => exact hls
    · intro x hx hx2
      cases legacyCleanupDone with
      | true => simp [sandboxIds] at hx2
      | false =>
          obtain ⟨s, hsls, hsx⟩ := List.mem_map.mp hx2
          obtain ⟨hd1, hd2⟩ := hdisj s hsls
          rcases List.mem_append.mp hx with hxa | hxb
          · exact hd1 (hsx ▸ hxa)
          · obtain ⟨_, cp, hcp⟩ := hcpid hxb
            exact hd2 (hsx ▸ mem_storeKeys_of_mem hcp)

/-- Witness for C2 on a concrete state: one convertible backend record, one
failed conversion, one checkpoint-only entry, one checkpoint shadowed by the
backend record, and one legacy sandbox. -/
theorem listPodSandbox_complete_witness :
    ((sandboxIds (okConverted
        [Except.ok { id := "a", metadata := { name := "web", ns := "default" },
                     state := SandboxState.ready },
         Except.error "malformed"])).Nodup
      ∧ (storeKeys [("a", StoredPayload.valid (NewPodSandboxCheckpoint "default" "web")),
                    ("b", StoredPayload.valid (NewPodSandboxCheckpoint "default" "db"))]).Nodup
      ∧ (sandboxIds [({ id := "c", metadata := { name := "old", ns := "default" },
                        state := SandboxState.notReady } : PodSandbox)]).Nodup)
    ∧ listPodSandbox none
        (.ok [Except.ok { id := "a", metadata := { name := "web", ns := "default" },
                          state := SandboxState.ready },
              Except.error "malformed"])
        [("a", StoredPayload.valid (NewPodSandboxCheckpoint "default" "web")),
         ("b", StoredPayload.valid (NewPodSandboxCheckpoint "default" "db"))]
        false
        (.ok [{ id := "c", metadata := { name := "old", ns := "default" },
                state := SandboxState.notReady }])
      = .ok ([{ id := "a", metadata := { name := "web", ns := "default" },
                state := SandboxState.ready },
              checkpointToRuntimeAPISandbox "b" (NewPodSandboxCheckpoint "default" "db"),
              { id := "c", metadata := { name := "old", ns := "default" },
                state := SandboxState.notReady }],
             [("a", StoredPayload.valid (NewPodSandboxCheckpoint "default" "web")),
              ("b", StoredPayload.valid (NewPodSandboxCheckpoint "default" "db"))]) := by
  have h := listPodSandbox_complete
    [Except.ok { id := "a", metadata := { name := "web", ns := "default" },
                 state := SandboxState.ready },
     Except.error "malformed"]
    [("a", StoredPayload.valid (NewPodSandboxCheckpoint "default" "web")),
     ("b", StoredPayload.valid (NewPodSandboxCheckpoint "default" "db"))]
    false
    [{ id := "c", metadata := { name := "old", ns := "default" },
       state := SandboxState.notReady }]
    (by decide) (by decide) (by decide) (by decide) (by decide)
  exact ⟨⟨by decide, by decide, by decide⟩, h.1⟩

/-- C4: a corrupted checkpoint (with no matching backend record) never makes
an unfiltered List fail: the call returns, the corrupted id is absent from
the result and from the resulting store, every valid checkpoint entry
survives in the store and (when unshadowed) is still reported, and all
convertible backend records are still returned. -/
theorem listPodSandbox_corrupt_safe (conv : List (Except String PodSandbox))
    (store : CheckpointStore) (id0 : String)
    (hkeys : (storeKeys store).Nodup)
    (hcor : (id0, StoredPayload.corrupt) ∈ store)
    (hnotconv : id0 ∉ sandboxIds (okConverted conv)) :
    ∃ res store',
      listPodSandbox none (.ok conv) store true (.ok []) = .ok (res, store')
      ∧ id0 ∉ sandboxIds res
      ∧ storeLookup store' id0 = none
      ∧ (∀ id cp, (id, StoredPayload.valid cp) ∈ store →
          (id, StoredPayload.valid cp) ∈ store'
          ∧ (id ∉ sandboxIds (okConverted conv) →
              checkpointToRuntimeAPISandbox id cp ∈ res))
      ∧ (∀ s, Except.ok s ∈ conv → s ∈ res) := by
  refine ⟨okConverted conv
      ++ checkpointOnlyRecords (sandboxIds (okConverted conv)) store ++ [],
    purgeCorrupt (sandboxIds (okConverted conv)) store,
    by simpa using listPodSandbox_no_filter conv store true [] hkeys, ?_, ?_, ?_, ?_⟩
  · intro hmem
    rw [sandboxIds_append, sandboxIds_append] at hmem
    rcases List.mem_append.mp hmem with hx | hx
    · rcases List.mem_append.mp hx with hxa | hxb
      · exact hnotconv hxa
      · obtain ⟨_, cp, hcp⟩ := mem_checkpointOnly_ids hxb
        exact absurd (store_mem_unique hkeys hcp hcor) (by simp)
    · simp [sandboxIds] at hx
  · exact purge_lookup_corrupt hkeys hcor hnotconv
  · intro id cp hm
    refine ⟨purge_keeps_valid hm, fun hid => ?_⟩
    exact List.mem_append.mpr (Or.inl
      (List.mem_append.mpr (Or.inr (mem_checkpointOnlyRecords hm hid))))
  · intro s hs
    exact List.mem_append.mpr (Or.inl (List.mem_append.mpr (Or.inl (mem_okConverted hs))))

/-- Witness for C4 on a concrete store holding one corrupted and one valid
checkpoint: List succeeds, drops and removes the corrupted one, and keeps
the valid one. -/
theorem listPodSandbox_corrupt_safe_witness :
    ((storeKeys [("bad", StoredPayload.corrupt),
                 ("b", StoredPayload.valid (NewPodSandboxCheckpoint "default" "db"))]).Nodup
      ∧ ("bad", StoredPayload.corrupt)
          ∈ ([("bad", StoredPayload.corrupt),
              ("b", StoredPayload.valid (NewPodSandboxCheckpoint "default" "db"))]
             : CheckpointStore)
      ∧ "bad" ∉ sandboxIds (okConverted
          ([Except.ok { id := "a", metadata := { name := "web", ns := "default" },
                        state := SandboxState.ready }]
           : List (Except String PodSandbox))))
    ∧ ∃ res store',
        listPodSandbox none
          (.ok ([Except.ok { id := "a", metadata := { name := "web", ns := "default" },
                             state := SandboxState.ready }]
                : List (Except String PodSandbox)))
          [("bad", StoredPayload.corrupt),
           ("b", StoredPayload.valid (NewPodSandboxCheckpoint "default" "db"))]
          true (.ok [])
          = .ok (res, store')
        ∧ "bad" ∉ sandboxIds res
        ∧ storeLookup store' "bad" = none
        ∧ (∀ id cp, (id, StoredPayload.valid cp)
              ∈ ([("bad", StoredPayload.corrupt),
                  ("b", StoredPayload.valid (NewPodSandboxCheckpoint "default" "db"))]
                 : CheckpointStore) →
            (id, StoredPayload.valid cp) ∈ store'
            ∧ (id ∉ sandboxIds (okConverted
                ([Except.ok { id := "a", metadata := { name := "web", ns := "default" },
                              state := SandboxState.ready }]
                 : List (Except String PodSandbox))) →
                checkpointToRuntimeAPISandbox id cp ∈ res))
        ∧ (∀ s, Except.ok s
              ∈ ([Except.ok { id := "a", metadata := { name := "web", ns := "default" },
                              state := SandboxState.ready }]
                 : List (Except String PodSandbox)) →
            s ∈ res) := by
  refine ⟨⟨by decide, by decide, by decide⟩, ?_⟩
  exact listPodSandbox_corrupt_safe
    ([Except.ok { id := "a", metadata := { name := "web", ns := "default" },
                  state := SandboxState.ready }]
     : List (Except String PodSandbox))
    [("bad", StoredPayload.corrupt),
     ("b", StoredPayload.valid (NewPodSandboxCheckpoint "default" "db"))]
    "bad" (by decide) (by decide) (by decide)

end DockershimSandbox
